import Mathlib

/-!
Verification of the AirTag location extractor (`extract_location.py`).

The data values of the extractor are parsed JSON / plist values: `JVal` models
Python values as they appear after `json.loads` (numbers as exact rationals,
`None` as `null`, dicts as insertion-ordered key/value sequences).  Fallible
Python code (uncaught exceptions such as `ValueError` from `float`,
`AttributeError` from `.get` on a non-dict, `TypeError` from ordering a
string against a number) is modelled with `Option`: `none` is an uncaught
exception propagating out of the translated fragment.
-/

mutual
inductive JVal where
  | null : JVal
  | boolv (b : Bool) : JVal
  | num (q : Rat) : JVal
  | str (s : List Char) : JVal
  | arr (xs : JArr) : JVal
  | obj (kvs : JObj) : JVal
  deriving DecidableEq
inductive JArr where
  | nil : JArr
  | cons (v : JVal) (t : JArr) : JArr
  deriving DecidableEq
inductive JObj where
  | nil : JObj
  | cons (k : List Char) (v : JVal) (t : JObj) : JObj
  deriving DecidableEq
end

def JArr.ofList : List JVal → JArr
  | [] => .nil
  | v :: t => .cons v (JArr.ofList t)

def JArr.toList : JArr → List JVal
  | .nil => []
  | .cons v t => v :: JArr.toList t

def JObj.ofList : List (List Char × JVal) → JObj
  | [] => .nil
  | (k, v) :: t => .cons k v (JObj.ofList t)

def JObj.append : JObj → JObj → JObj
  | .nil, o => o
  | .cons k v t, o => .cons k v (JObj.append t o)

/-- Python `dict.get(key)`: value of the first matching key, if any. -/
def dGet : JObj → List Char → Option JVal
  | .nil, _ => none
  | .cons k v t, key => if k = key then some v else dGet t key

/-- Python `dict.get(key, default)`. -/
def dGetD (o : JObj) (key : List Char) (d : JVal) : JVal :=
  (dGet o key).getD d

/-- Model of Python `dict.__setitem__`: overwrite in place if the key exists,
append at the end otherwise (insertion order preserved). -/
def JObj.setKey : JObj → List Char → JVal → JObj
  | .nil, k, v => .cons k v .nil
  | .cons k0 v0 t, k, v =>
      if k0 = k then .cons k0 v t else .cons k0 v0 (JObj.setKey t k v)

/-- Key lookup through a `JVal` that is expected to be a dict; `none` both
when the key is absent and when the value is not a dict. -/
def jGet : JVal → List Char → Option JVal
  | JVal.obj o, k => dGet o k
  | _, _ => none

/-- Python truthiness of a `JVal`. -/
def pyTruthy : JVal → Bool
  | JVal.null => false
  | JVal.boolv b => b
  | JVal.num q => q != 0
  | JVal.str s => !s.isEmpty
  | JVal.arr JArr.nil => false
  | JVal.arr (JArr.cons _ _) => true
  | JVal.obj JObj.nil => false
  | JVal.obj (JObj.cons _ _ _) => true

-- Dictionary keys used by the extractor (as character lists).
def nameK : List Char := "name".data
def latK : List Char := "latitude".data
def lonK : List Char := "longitude".data
def accK : List Char := "accuracy".data
def tsK : List Char := "timestamp".data
def addrK : List Char := "address".data
def rawK : List Char := "raw".data
def haccK : List Char := "horizontalAccuracy".data
def tstampK : List Char := "timeStamp".data
def recAtK : List Char := "recorded_at".data
def objectsK : List Char := "$objects".data
def locK : List Char := "location".data

/-- The configured tracked name, `AIRTAG_NAME` in the source. -/
def AIRTAG_NAME : List Char := "ERAUBCU LYRIQ".data

/-! ## Text-dump parser (`parse_raw_plutil_output`, lines 65-131)

The five `re.search` patterns of the source are implemented directly:
leftmost occurrence of the quoted key literal, then `\s*`, then `=>`, then
`\s*`, then either a non-empty quoted capture (`"([^"]+)"`) or a non-empty
run of characters from `[-\d.]`. -/

/-- Whitespace class of Python `\s` restricted to ASCII. -/
def pySpace (c : Char) : Bool :=
  c = ' ' || c = '\t' || c = '\n' || c = '\r' || c = '\x0b' || c = '\x0c'

/-- Character class `[-\d.]` of the numeric patterns. -/
def numChar (c : Char) : Bool :=
  c.isDigit || c = '-' || c = '.'

/-- Drop a literal from the front of a character list, or fail. -/
def afterLit : List Char → List Char → Option (List Char)
  | [], rest => some rest
  | _ :: _, [] => none
  | k :: ks, c :: cs => if c = k then afterLit ks cs else none

/-- Try to match `<key>\s*=>\s*"([^"]+)"` anchored at the start of `cs`,
returning the capture. -/
def quotedCapAt (key cs : List Char) : Option (List Char) :=
  match afterLit key cs with
  | none => none
  | some r1 =>
    match afterLit ['=', '>'] (r1.dropWhile pySpace) with
    | none => none
    | some r2 =>
      match (r2.dropWhile pySpace) with
      | '"' :: r3 =>
        let cap := r3.takeWhile (fun c => c ≠ '"')
        match r3.dropWhile (fun c => c ≠ '"'), cap with
        | '"' :: _, _ :: _ => some cap
        | _, _ => none
      | _ => none

/-- Try to match `<key>\s*=>\s*([-\d.]+)` anchored at the start of `cs`,
returning the capture. -/
def numCapAt (key cs : List Char) : Option (List Char) :=
  match afterLit key cs with
  | none => none
  | some r1 =>
    match afterLit ['=', '>'] (r1.dropWhile pySpace) with
    | none => none
    | some r2 =>
      match (r2.dropWhile pySpace).takeWhile numChar with
      | [] => none
      | c :: cs2 => some (c :: cs2)

/-- Model of `re.search`: try the anchored match at each position, leftmost wins. -/
def searchCap (tryAt : List Char → Option (List Char)) : List Char → Option (List Char)
  | [] => tryAt []
  | c :: cs =>
    match tryAt (c :: cs) with
    | some r => some r
    | none => searchCap tryAt cs

def searchName (line : List Char) : Option (List Char) :=
  searchCap (quotedCapAt ('"' :: nameK ++ ['"'])) line

def searchLat (line : List Char) : Option (List Char) :=
  searchCap (numCapAt ('"' :: latK ++ ['"'])) line

def searchLon (line : List Char) : Option (List Char) :=
  searchCap (numCapAt ('"' :: lonK ++ ['"'])) line

def searchAcc (line : List Char) : Option (List Char) :=
  searchCap (numCapAt ('"' :: haccK ++ ['"'])) line

def searchTs (line : List Char) : Option (List Char) :=
  searchCap (numCapAt ('"' :: tstampK ++ ['"'])) line

/-- Numeric value of a digit list. -/
def digitsVal (cs : List Char) : Nat :=
  cs.foldl (fun a c => a * 10 + (c.toNat - 48)) 0

/-- Python `float` on an unsigned literal drawn from `[-\d.]`:
`digits`, `digits.`, `digits.digits` or `.digits`; anything else raises. -/
def parseUnsignedFloat (cs : List Char) : Option Rat :=
  let ip := cs.takeWhile Char.isDigit
  match cs.dropWhile Char.isDigit with
  | [] => if ip.isEmpty then none else some (digitsVal ip : Rat)
  | '.' :: fp =>
    if fp.all Char.isDigit && (!ip.isEmpty || !fp.isEmpty) then
      some ((digitsVal ip : Rat) + (digitsVal fp : Rat) / ((10 : Rat) ^ fp.length))
    else none
  | _ => none

/-- Python `float` on a capture of `[-\d.]+`; `none` models `ValueError`. -/
def parsePyFloat : List Char → Option Rat
  | '-' :: rest => (parseUnsignedFloat rest).map (fun q => -q)
  | cs => parseUnsignedFloat cs

/-- The five pending scalars and the accumulated records of the scan loop. -/
structure ScanState where
  items : List JVal
  curName : Option (List Char)
  curLat : Option Rat
  curLon : Option Rat
  curAcc : Option Rat
  curTs : Option Rat
  deriving DecidableEq

def initScan : ScanState :=
  { items := [], curName := none, curLat := none, curLon := none,
    curAcc := none, curTs := none }

def optNumJ : Option Rat → JVal
  | some q => JVal.num q
  | none => JVal.null

/-- The dict appended on a flush (`items.append({...})`). -/
def flushRec (st : ScanState) : JVal :=
  JVal.obj (JObj.ofList
    [(nameK, JVal.str (st.curName.getD [])),
     (latK, optNumJ st.curLat),
     (lonK, optNumJ st.curLon),
     (accK, optNumJ st.curAcc),
     (tsK, optNumJ st.curTs)])

/-- Python `current_name and current_lat is not None`. -/
def pendTruthy (st : ScanState) : Bool :=
  (match st.curName with
   | some s => !s.isEmpty
   | none => false) && st.curLat.isSome

/-- The name-pattern part of one loop iteration: flush when a name is
matched while a name and a latitude are pending, then reset only the
latitude and longitude. -/
def applyName (st : ScanState) (line : List Char) : ScanState :=
  match searchName line with
  | some cap =>
    { st with
      items := st.items ++ (if pendTruthy st then [flushRec st] else []),
      curName := some cap, curLat := none, curLon := none }
  | none => st

/-- Update one pending scalar from a capture; `none` models the `ValueError`
raised by `float` on an unparseable capture. -/
def setNum (cap : Option (List Char)) (old : Option Rat) : Option (Option Rat) :=
  match cap with
  | none => some old
  | some cs =>
    match parsePyFloat cs with
    | none => none
    | some v => some (some v)

/-- One iteration of the line loop (source lines 88-119). -/
def scanLine (st : ScanState) (line : List Char) : Option ScanState :=
  let st1 := applyName st line
  match setNum (searchLat line) st1.curLat, setNum (searchLon line) st1.curLon,
        setNum (searchAcc line) st1.curAcc, setNum (searchTs line) st1.curTs with
  | some l2, some o2, some a2, some t2 =>
    some { st1 with curLat := l2, curLon := o2, curAcc := a2, curTs := t2 }
  | _, _, _, _ => none

def scanLines : ScanState → List (List Char) → Option ScanState
  | st, [] => some st
  | st, l :: ls =>
    match scanLine st l with
    | none => none
    | some st2 => scanLines st2 ls

/-- Python `raw_output.split('\n')`. -/
def splitOnNl : List Char → List (List Char)
  | [] => [[]]
  | c :: rest =>
    if c = '\n' then [] :: splitOnNl rest
    else
      match splitOnNl rest with
      | [] => [[c]]
      | l :: ls => (c :: l) :: ls

/-- Model of `parse_raw_plutil_output(raw_output, airtag_name)` (lines 65-131);
the `airtag_name` argument is unused in the source as well. -/
def parse_raw_plutil_output (raw : List Char) (_airtag_name : List Char) :
    Option (List JVal) :=
  match scanLines initScan (splitOnNl raw) with
  | none => none
  | some st =>
    some (st.items ++ (if pendTruthy st then [flushRec st] else []))

/-! ## Entity matcher (`find_airtag`, lines 134-150) -/

/-- ASCII lowering of Python `str.lower` on the names in play. -/
def lowerL (s : List Char) : List Char := s.map Char.toLower

/-- Whether `nd` starts `hay`. -/
def leadsWith : List Char → List Char → Bool
  | [], _ => true
  | _ :: _, [] => false
  | a :: as, b :: bs => a = b && leadsWith as bs

/-- Python `nd in hay`: contiguous substring containment. -/
def hasSub (nd : List Char) : List Char → Bool
  | [] => nd.isEmpty
  | c :: cs => leadsWith nd (c :: cs) || hasSub nd cs

/-- `item.get("name", "")` followed by `.lower()`: `none` models the crash
on a non-dict item or a non-string name value. -/
def itemNameStr : JVal → Option (List Char)
  | JVal.obj kvs =>
    match dGetD kvs nameK (JVal.str []) with
    | JVal.str s => some s
    | _ => none
  | _ => none

/-- Exact-pass test: `item_name.lower() == name_lower`. -/
def exactB (nl : List Char) (it : JVal) : Bool :=
  match itemNameStr it with
  | some s => lowerL s = nl
  | none => false

/-- Fallback-pass test:
`name_lower in item_name.lower() or item_name.lower() in name_lower`. -/
def subB (nl : List Char) (it : JVal) : Bool :=
  match itemNameStr it with
  | some s => hasSub nl (lowerL s) || hasSub (lowerL s) nl
  | none => false

/-- Exact-pass test with the crash case explicit. -/
def exactHit (nl : List Char) (it : JVal) : Option Bool :=
  (itemNameStr it).map (fun s => lowerL s = nl)

/-- Fallback-pass test with the crash case explicit. -/
def subHit (nl : List Char) (it : JVal) : Option Bool :=
  (itemNameStr it).map (fun s => hasSub nl (lowerL s) || hasSub (lowerL s) nl)

/-- One `for item in items` pass returning the first hit; outer `none`
models a crash while testing an item. -/
def findPass (p : JVal → Option Bool) : List JVal → Option (Option JVal)
  | [] => some none
  | it :: rest =>
    match p it with
    | none => none
    | some true => some (some it)
    | some false => findPass p rest

/-- Model of `find_airtag(items, name)` (lines 134-150): exact pass, then
substring-fallback pass, then not-found (`None`, the inner `none`). -/
def find_airtag (items : List JVal) (name : List Char) : Option (Option JVal) :=
  let nl := lowerL name
  match findPass (exactHit nl) items with
  | none => none
  | some (some it) => some (some it)
  | some none => findPass (subHit nl) items

/-! ## Structured-mode extraction (`main`, lines 195-217) -/

/-- Normalization of one array element in the top-level-array branch
(lines 200-213): `none` models the `.get` crash on a non-dict element. -/
def normalizeItem : JVal → Option JVal
  | JVal.obj kvs =>
    let base : JObj :=
      JObj.cons nameK (dGetD kvs nameK (JVal.str "Unknown".data))
        (JObj.cons rawK (JVal.obj kvs) JObj.nil)
    match dGetD kvs locK JVal.null with
    | JVal.obj (JObj.cons lk lv lt) =>
      some (JVal.obj (base.append (JObj.ofList
        [(latK, dGetD (JObj.cons lk lv lt) latK JVal.null),
         (lonK, dGetD (JObj.cons lk lv lt) lonK JVal.null),
         (accK, dGetD (JObj.cons lk lv lt) haccK JVal.null),
         (tsK, dGetD (JObj.cons lk lv lt) tstampK JVal.null),
         (addrK, dGetD kvs addrK (JVal.obj JObj.nil))])))
    | _ => some (JVal.obj base)
  | _ => none

/-- The `for item in data` accumulation of normalized items; `none` models
a crash on some element. -/
def mapItems : List JVal → Option (List JVal)
  | [] => some []
  | x :: t =>
    match normalizeItem x, mapItems t with
    | some y, some ys => some (y :: ys)
    | _, _ => none

/-- The `items` computed from structured (`"json"`) plutil output
(lines 195-217): a top-level array is normalized element by element; a
mapping yields `data.get("$objects", [])` unchanged; anything else yields
the empty list. -/
def extract_items (data : JVal) : Option JVal :=
  match data with
  | JVal.arr xs => (mapItems xs.toList).map (fun ys => JVal.arr (JArr.ofList ys))
  | JVal.obj kvs => some (dGetD kvs objectsK (JVal.arr JArr.nil))
  | _ => some (JVal.arr JArr.nil)

/-! ## History store and change detection (lines 153-164, 256-291) -/

/-- Model of `load_history()` (lines 153-158).  The persisted-file state is passed
in explicitly: `none` = the file is absent, `some none` = it exists but
`json.load` raises, `some (some v)` = it parses to `v`.  The outer `none`
of the result is the uncaught parse error. -/
def load_history (file : Option (Option JVal)) : Option JVal :=
  match file with
  | none =>
    some (JVal.obj (JObj.ofList
      [("airtag_name".data, JVal.str AIRTAG_NAME),
       ("locations".data, JVal.arr JArr.nil)]))
  | some none => none
  | some (some v) => some v

/-- Python `location["timestamp"] and location["timestamp"] > 1e12`
followed by the `/ 1000` rewrite (lines 271-273); `none` models the
`TypeError` of ordering a non-number against `1e12`. -/
def normTs (v : JVal) : Option JVal :=
  if pyTruthy v then
    match v with
    | JVal.num q =>
      some (JVal.num (if 1000000000000 < q then q / 1000 else q))
    | JVal.boolv b => some (JVal.boolv b)
    | _ => none
  else some v

/-- Building the candidate `location` dict from the matched entity
(lines 256-273): `some none` is the early `return` when latitude or
longitude is `None`; the outer `none` is a crash. -/
def build_location (airtag : JVal) : Option (Option JObj) :=
  match airtag with
  | JVal.obj kvs =>
    let lat := dGetD kvs latK JVal.null
    let lon := dGetD kvs lonK JVal.null
    if lat = JVal.null ∨ lon = JVal.null then some none
    else
      let ts0 := dGetD kvs tsK (JVal.num 0)
      let loc0 : JObj := JObj.ofList
        [(latK, lat), (lonK, lon),
         (accK, dGetD kvs accK JVal.null),
         (tsK, ts0),
         (addrK, dGetD kvs addrK (JVal.obj JObj.nil))]
      match normTs ts0 with
      | none => none
      | some ts1 => some (some (loc0.setKey tsK ts1))
  | _ => none

/-- Outcome of one change-detection step: the in-memory locations list,
what (if anything) was written to disk, and whether the step reported
"New location recorded" (`true`) or "Location unchanged" (`false`). -/
structure RecordResult where
  locations : List JVal
  persisted : Option (List JVal)
  recorded : Bool
  deriving DecidableEq

/-- The `is_new` computation (lines 278-283): `none` models the crash of
`last.get` when the last stored entry is not a dict. -/
def isNewCheck (hist : List JVal) (lv lnv : JVal) : Option Bool :=
  match hist.getLast? with
  | none => some true
  | some (JVal.obj kvs) =>
    some (!(dGetD kvs latK JVal.null = lv ∧ dGetD kvs lonK JVal.null = lnv : Bool))
  | some _ => none

/-- The change-detection step of `main` (lines 276-291), named
`recordIfChanged` after the specification: stamp `recorded_at`, append and
persist when the last stored pair differs, otherwise do nothing. -/
def recordIfChanged (hist : List JVal) (loc : JObj) (now : List Char) :
    Option RecordResult :=
  match dGet loc latK, dGet loc lonK with
  | some lv, some lnv =>
    (match isNewCheck hist lv lnv with
     | none => none
     | some true =>
       let entry := JVal.obj (loc.setKey recAtK (JVal.str now))
       some { locations := hist ++ [entry],
              persisted := some (hist ++ [entry]), recorded := true }
     | some false =>
       some { locations := hist, persisted := none, recorded := false })
  | _, _ => none

/-- Effect of one full extraction cycle on the stored locations list, given
the matched entity dict and the capture time: a crash or an absent
coordinate leaves the store untouched. -/
def processCandidate (hist : List JVal) (airtag : JVal) (now : List Char) :
    List JVal :=
  match build_location airtag with
  | none => hist
  | some none => hist
  | some (some loc) =>
    match recordIfChanged hist loc now with
    | none => hist
    | some res => res.locations

def jlat (e : JVal) : JVal :=
  match e with
  | JVal.obj o => dGetD o latK JVal.null
  | _ => JVal.null

def jlon (e : JVal) : JVal :=
  match e with
  | JVal.obj o => dGetD o lonK JVal.null
  | _ => JVal.null

/-- No two adjacent stored entries carry the same coordinate pair. -/
def adjOk (l : List JVal) : Prop :=
  List.Chain' (fun a b => ¬(jlat a = jlat b ∧ jlon a = jlon b)) l

/-! ## Derived notions and concrete inputs used by the statements -/

/-- Keep the old pending value unless the line supplied a new one. -/
def orKeep (o d : Option Rat) : Option Rat :=
  match o with
  | some v => some v
  | none => d

/-- First-of-two option choice: the exact pass wins over the fallback pass. -/
def orOpt (a b : Option JVal) : Option JVal :=
  match a with
  | some x => some x
  | none => b

/-- Per-element specification of structured-mode normalization: location
fields are copied from a non-empty nested `location` dict, and are absent
keys otherwise. -/
def elemSpec (x y : JVal) : Prop :=
  ∀ kvs, x = JVal.obj kvs →
    ((∀ lkvs, dGetD kvs locK JVal.null = JVal.obj lkvs → lkvs ≠ JObj.nil →
        jGet y latK = some (dGetD lkvs latK JVal.null) ∧
        jGet y lonK = some (dGetD lkvs lonK JVal.null) ∧
        jGet y accK = some (dGetD lkvs haccK JVal.null) ∧
        jGet y tsK = some (dGetD lkvs tstampK JVal.null)) ∧
     ((∀ lkvs, dGetD kvs locK JVal.null = JVal.obj lkvs → lkvs = JObj.nil) →
        jGet y latK = none ∧ jGet y lonK = none))

/-- A synthetic text dump with two sibling name/latitude/longitude blocks. -/
def sampleDump : List Char :=
  ("    \"name\" => \"TagA\"\n    \"latitude\" => 40\n    \"longitude\" => -73\n    \"name\" => \"TagB\"\n    \"latitude\" => 41\n    \"longitude\" => -74").data

def sampleRecA : JVal :=
  JVal.obj (JObj.ofList
    [(nameK, JVal.str "TagA".data), (latK, JVal.num 40),
     (lonK, JVal.num (-73)), (accK, JVal.null), (tsK, JVal.null)])

def sampleRecB : JVal :=
  JVal.obj (JObj.ofList
    [(nameK, JVal.str "TagB".data), (latK, JVal.num 41),
     (lonK, JVal.num (-74)), (accK, JVal.null), (tsK, JVal.null)])

/-- A pending state with a name, latitude, accuracy and timestamp. -/
def wSt : ScanState :=
  { items := [], curName := some ['X'], curLat := some 1, curLon := none,
    curAcc := some 2, curTs := some 3 }

/-- A line whose only pattern hit is a new name field. -/
def wNameLine : List Char := ("\"name\" => \"Y\"").data

/-- The state after scanning `wNameLine` from `wSt`. -/
def wSt2 : ScanState :=
  { items := [flushRec wSt], curName := some ['Y'], curLat := none,
    curLon := none, curAcc := some 2, curTs := some 3 }

/-- A line matching none of the five patterns. -/
def wPlainLine : List Char := ("hello").data

/-- The scan state after all lines of `sampleDump`. -/
def wFinalSt : ScanState :=
  { items := [sampleRecA], curName := some "TagB".data, curLat := some 41,
    curLon := some (-74), curAcc := none, curTs := none }

/-- A structured-mode element with a name and a nested location. -/
def cexElem : JVal :=
  JVal.obj (JObj.ofList
    [(nameK, JVal.str ['A']),
     (locK, JVal.obj (JObj.ofList [(latK, JVal.num 1)]))])

/-- What normalizing `cexElem` actually produces. -/
def cexNorm : JVal :=
  JVal.obj (JObj.ofList
    [(nameK, JVal.str ['A']),
     (rawK, cexElem),
     (latK, JVal.num 1), (lonK, JVal.null), (accK, JVal.null),
     (tsK, JVal.null), (addrK, JVal.obj JObj.nil)])

/-- A stored entry at coordinates (40, -73). -/
def wEntry : JVal :=
  JVal.obj (JObj.ofList
    [(latK, JVal.num 40), (lonK, JVal.num (-73)),
     (recAtK, JVal.str "t0".data)])

/-- A candidate at the same coordinates as `wEntry`. -/
def wLocSame : JObj :=
  JObj.ofList
    [(latK, JVal.num 40), (lonK, JVal.num (-73)),
     (accK, JVal.null), (tsK, JVal.num 0), (addrK, JVal.obj JObj.nil)]

/-- A candidate at different coordinates. -/
def wLocNew : JObj :=
  JObj.ofList
    [(latK, JVal.num 41), (lonK, JVal.num (-73)),
     (accK, JVal.null), (tsK, JVal.num 0), (addrK, JVal.obj JObj.nil)]

/-- An entity dict with a millisecond timestamp. -/
def wTagMs : JObj :=
  JObj.ofList
    [(latK, JVal.num 40), (lonK, JVal.num (-73)),
     (tsK, JVal.num 1715000000000)]

/-- An entity dict with a second-resolution timestamp. -/
def wTagS : JObj :=
  JObj.ofList
    [(latK, JVal.num 40), (lonK, JVal.num (-73)),
     (tsK, JVal.num 1715000000)]

/-- The single entity of the substring-fallback example. -/
def entLyriq : JVal :=
  JVal.obj (JObj.ofList [(nameK, JVal.str "ERAUBCU LYRIQ".data)])

/-- An entity whose dict has no name field at all. -/
def entNameless : JVal := JVal.obj JObj.nil

/-! ## Helper lemmas -/

lemma setNum_eq_some {c : Option (List Char)} {o r : Option Rat}
    (h : setNum c o = some r) : r = orKeep (c.bind parsePyFloat) o := by
  cases c with
  | none => simp [setNum] at h; simp [orKeep, h]
  | some cs =>
    cases hp : parsePyFloat cs with
    | none => simp [setNum, hp] at h
    | some v =>
      simp only [setNum, hp, Option.some.injEq] at h
      subst h
      simp [orKeep, hp]

lemma orKeep_none (o : Option Rat) : orKeep o none = o := by
  cases o <;> simp [orKeep]

lemma scan_step_name {st : ScanState} {line cap : List Char} {st2 : ScanState}
    (hn : searchName line = some cap) (hs : scanLine st line = some st2) :
    st2.items = st.items ++ (if pendTruthy st then [flushRec st] else []) ∧
    st2.curName = some cap ∧
    st2.curLat = (searchLat line).bind parsePyFloat ∧
    st2.curLon = (searchLon line).bind parsePyFloat ∧
    st2.curAcc = orKeep ((searchAcc line).bind parsePyFloat) st.curAcc ∧
    st2.curTs = orKeep ((searchTs line).bind parsePyFloat) st.curTs := by
  simp only [scanLine, applyName, hn] at hs
  cases h1 : setNum (searchLat line) none <;> rw [h1] at hs <;>
    [skip; cases h2 : setNum (searchLon line) none <;> rw [h2] at hs]
  · exact absurd hs (by simp)
  · exact absurd hs (by simp)
  · cases h3 : setNum (searchAcc line) st.curAcc <;> rw [h3] at hs
    · exact absurd hs (by simp)
    · cases h4 : setNum (searchTs line) st.curTs <;> rw [h4] at hs
      · exact absurd hs (by simp)
      · simp only [Option.some.injEq] at hs
        subst hs
        refine ⟨rfl, rfl, ?_, ?_, ?_, ?_⟩
        · rw [← orKeep_none ((searchLat line).bind parsePyFloat)]
          exact setNum_eq_some h1
        · rw [← orKeep_none ((searchLon line).bind parsePyFloat)]
          exact setNum_eq_some h2
        · exact setNum_eq_some h3
        · exact setNum_eq_some h4

lemma scan_step_noname {st : ScanState} {line : List Char} {st2 : ScanState}
    (hn : searchName line = none) (hs : scanLine st line = some st2) :
    st2.items = st.items ∧ st2.curName = st.curName := by
  simp only [scanLine, applyName, hn] at hs
  cases h1 : setNum (searchLat line) st.curLat <;> rw [h1] at hs <;>
    [skip; cases h2 : setNum (searchLon line) st.curLon <;> rw [h2] at hs]
  · exact absurd hs (by simp)
  · exact absurd hs (by simp)
  · cases h3 : setNum (searchAcc line) st.curAcc <;> rw [h3] at hs
    · exact absurd hs (by simp)
    · cases h4 : setNum (searchTs line) st.curTs <;> rw [h4] at hs
      · exact absurd hs (by simp)
      · simp only [Option.some.injEq] at hs
        subst hs
        exact ⟨rfl, rfl⟩

/-! ## C1 -/

/-- C1: the line scanner flushes a pending record exactly when a new name
field is matched while a name and a latitude are pending; the flush resets
only the pending latitude and longitude (the pending accuracy and
timestamp persist, into the flushed record and into the next state); with
no name match the result list is untouched; after the last line a pending
name+latitude pair is flushed as a final record; and a dump with two
sibling name/latitude/longitude blocks yields exactly two records with
their own uncontaminated name fields. -/
theorem parse_raw_flush_spec :
    (∀ st line cap st2, searchName line = some cap → scanLine st line = some st2 →
       st2.items = st.items ++ (if pendTruthy st then [flushRec st] else []) ∧
       st2.curName = some cap ∧
       st2.curLat = (searchLat line).bind parsePyFloat ∧
       st2.curLon = (searchLon line).bind parsePyFloat ∧
       st2.curAcc = orKeep ((searchAcc line).bind parsePyFloat) st.curAcc ∧
       st2.curTs = orKeep ((searchTs line).bind parsePyFloat) st.curTs) ∧
    (∀ st line st2, searchName line = none → scanLine st line = some st2 →
       st2.items = st.items ∧ st2.curName = st.curName) ∧
    (∀ raw nm st, scanLines initScan (splitOnNl raw) = some st →
       parse_raw_plutil_output raw nm =
         some (st.items ++ (if pendTruthy st then [flushRec st] else []))) ∧
    (parse_raw_plutil_output sampleDump AIRTAG_NAME = some [sampleRecA, sampleRecB] ∧
       jGet sampleRecA nameK = some (JVal.str "TagA".data) ∧
       jGet sampleRecB nameK = some (JVal.str "TagB".data)) := by
  refine ⟨fun st line cap st2 hn hs => scan_step_name hn hs,
          fun st line st2 hn hs => scan_step_noname hn hs,
          fun raw nm st h => by simp [parse_raw_plutil_output, h],
          by decide, by decide, by decide⟩

/-- Witness for C1: the step equations at a concrete pending state and a
concrete name line, the no-flush equation at a patternless line, and the
final flush on the two-block sample dump. -/
theorem parse_raw_flush_spec_witness :
    (wSt2.items = wSt.items ++ (if pendTruthy wSt then [flushRec wSt] else []) ∧
     wSt2.curName = some ['Y'] ∧
     wSt2.curLat = (searchLat wNameLine).bind parsePyFloat ∧
     wSt2.curLon = (searchLon wNameLine).bind parsePyFloat ∧
     wSt2.curAcc = orKeep ((searchAcc wNameLine).bind parsePyFloat) wSt.curAcc ∧
     wSt2.curTs = orKeep ((searchTs wNameLine).bind parsePyFloat) wSt.curTs) ∧
    (wSt.items = wSt.items ∧ wSt.curName = wSt.curName) ∧
    (parse_raw_plutil_output sampleDump AIRTAG_NAME =
       some (wFinalSt.items ++ (if pendTruthy wFinalSt then [flushRec wFinalSt] else []))) :=
  ⟨parse_raw_flush_spec.1 wSt wNameLine ['Y'] wSt2 (by decide) (by decide),
   parse_raw_flush_spec.2.1 wSt wPlainLine wSt (by decide) (by decide),
   parse_raw_flush_spec.2.2.1 sampleDump AIRTAG_NAME wFinalSt (by decide)⟩

/-! ## C2 -/

lemma JArr.toList_ofList (l : List JVal) : (JArr.ofList l).toList = l := by
  induction l with
  | nil => rfl
  | cons v t ih => simp [JArr.ofList, JArr.toList, ih]

/-- Counterexample to C2: an element reached through the `"$objects"` key of
a mapping is NOT normalized — it is returned verbatim, while the same
element inside a top-level array is rebuilt with name/raw/location fields.
The two results differ, refuting "each array element is normalized the same
way" for the mapping shape. -/
theorem extract_items_objects_not_normalized :
    extract_items (JVal.obj (JObj.ofList [(objectsK, JVal.arr (JArr.ofList [cexElem]))])) =
      some (JVal.arr (JArr.ofList [cexElem])) ∧
    extract_items (JVal.arr (JArr.ofList [cexElem])) =
      some (JVal.arr (JArr.ofList [cexNorm])) ∧
    cexElem ≠ cexNorm := by
  refine ⟨by decide, by decide, by decide⟩

/-- C2 (amended): only a top-level array is normalized element by element
(name defaulted to "Unknown", location fields pulled from a non-empty
nested location mapping); for a mapping input, the value of `"$objects"`
(defaulting to an empty array) is returned as the item list unchanged,
with no per-element normalization. -/
theorem extract_items_by_shape :
    (∀ xs ys, mapItems xs = some ys →
       extract_items (JVal.arr (JArr.ofList xs)) = some (JVal.arr (JArr.ofList ys))) ∧
    (∀ kvs, extract_items (JVal.obj kvs) =
       some (dGetD kvs objectsK (JVal.arr JArr.nil))) := by
  constructor
  · intro xs ys h
    simp only [extract_items, JArr.toList_ofList, h]
    rfl
  · intro kvs
    rfl

/-- Witness for the amended C2 at the concrete element `cexElem`. -/
theorem extract_items_by_shape_witness :
    extract_items (JVal.arr (JArr.ofList [cexElem])) =
      some (JVal.arr (JArr.ofList [cexNorm])) :=
  extract_items_by_shape.1 [cexElem] [cexNorm] (by decide)

/-! ## C3, C4 -/

lemma isNewCheck_true {hist : List JVal} {lv lnv : JVal}
    (h : hist = [] ∨ ∃ kvs, hist.getLast? = some (JVal.obj kvs) ∧
       ¬(dGetD kvs latK JVal.null = lv ∧ dGetD kvs lonK JVal.null = lnv)) :
    isNewCheck hist lv lnv = some true := by
  rcases h with h | ⟨kvs, hl, hne⟩
  · simp [isNewCheck, h]
  · simp [isNewCheck, hl, hne]

/-- C3: with latitude and longitude set and a history that is empty or whose
coordinate pair of the last entry differs, the change detector appends exactly
one entry stamped `recorded_at := now`, persists the full updated log, and
reports "recorded". -/
theorem recordIfChanged_records :
    ∀ (hist : List JVal) (loc : JObj) (now : List Char) (lv lnv : JVal),
      dGet loc latK = some lv → dGet loc lonK = some lnv →
      lv ≠ JVal.null → lnv ≠ JVal.null →
      (hist = [] ∨ ∃ kvs, hist.getLast? = some (JVal.obj kvs) ∧
         ¬(dGetD kvs latK JVal.null = lv ∧ dGetD kvs lonK JVal.null = lnv)) →
      recordIfChanged hist loc now =
        some { locations := hist ++ [JVal.obj (loc.setKey recAtK (JVal.str now))],
               persisted := some (hist ++ [JVal.obj (loc.setKey recAtK (JVal.str now))]),
               recorded := true } := by
  intro hist loc now lv lnv hla hlo _ _ hnew
  simp [recordIfChanged, hla, hlo, isNewCheck_true hnew]

/-- Witness for C3: a one-entry log at (40, -73) and a candidate at
(41, -73) produce exactly the appended, persisted, recorded outcome. -/
theorem recordIfChanged_records_witness :
    recordIfChanged [wEntry] wLocNew "t1".data =
      some { locations := [wEntry] ++ [JVal.obj (wLocNew.setKey recAtK (JVal.str "t1".data))],
             persisted := some ([wEntry] ++ [JVal.obj (wLocNew.setKey recAtK (JVal.str "t1".data))]),
             recorded := true } :=
  recordIfChanged_records [wEntry] wLocNew "t1".data (JVal.num 41) (JVal.num (-73))
    (by decide) (by decide) (by decide) (by decide)
    (Or.inr ⟨JObj.ofList [(latK, JVal.num 40), (lonK, JVal.num (-73)),
       (recAtK, JVal.str "t0".data)], by decide, by decide⟩)

/-- C4: when the coordinate pair of the last stored entry exactly equals
that of the candidate, the change detector leaves the log untouched, writes nothing,
and reports "unchanged". -/
theorem recordIfChanged_unchanged :
    ∀ (hist : List JVal) (loc : JObj) (now : List Char) (lv lnv : JVal) (kvs : JObj),
      dGet loc latK = some lv → dGet loc lonK = some lnv →
      hist.getLast? = some (JVal.obj kvs) →
      dGetD kvs latK JVal.null = lv → dGetD kvs lonK JVal.null = lnv →
      recordIfChanged hist loc now =
        some { locations := hist, persisted := none, recorded := false } := by
  intro hist loc now lv lnv kvs hla hlo hl h1 h2
  have hchk : isNewCheck hist lv lnv = some false := by
    simp [isNewCheck, hl, h1, h2]
  simp [recordIfChanged, hla, hlo, hchk]

/-- Witness for C4: recording the same (40, -73) twice is a no-op the
second time. -/
theorem recordIfChanged_unchanged_witness :
    recordIfChanged [wEntry] wLocSame "t1".data =
      some { locations := [wEntry], persisted := none, recorded := false } :=
  recordIfChanged_unchanged [wEntry] wLocSame "t1".data
    (JVal.num 40) (JVal.num (-73))
    (JObj.ofList [(latK, JVal.num 40), (lonK, JVal.num (-73)),
       (recAtK, JVal.str "t0".data)])
    (by decide) (by decide) (by decide) (by decide) (by decide)

/-! ## C5 -/

lemma dGet_setKey_self : ∀ (o : JObj) (k : List Char) (v : JVal),
    dGet (o.setKey k v) k = some v
  | .nil, k, v => by simp [JObj.setKey, dGet]
  | .cons k0 v0 t, k, v => by
    by_cases h : k0 = k <;>
      simp [JObj.setKey, dGet, h, dGet_setKey_self t k v]

lemma dGet_setKey_ne : ∀ (o : JObj) {k k2 : List Char} (v : JVal), k ≠ k2 →
    dGet (o.setKey k2 v) k = dGet o k
  | .nil, k, k2, v, h => by
    have hne : ¬k2 = k := fun hh => h hh.symm
    simp [JObj.setKey, dGet, hne]
  | .cons k0 v0 t, k, k2, v, h => by
    by_cases h0 : k0 = k2
    · subst h0
      have hne : ¬k0 = k := fun hh => h hh.symm
      simp [JObj.setKey, dGet, hne]
    · by_cases h1 : k0 = k <;>
        simp [JObj.setKey, dGet, h, h0, h1, dGet_setKey_ne t v h]

lemma normTs_num (q : Rat) :
    normTs (JVal.num q) =
      some (JVal.num (if 1000000000000 < q then q / 1000 else q)) := by
  by_cases hq : q = 0
  · subst hq
    norm_num [normTs, pyTruthy]
  · simp [normTs, pyTruthy, bne, hq]

/-- C5: the candidate location built for recording always carries a
timestamp normalized to seconds: a numeric timestamp above 1e12 is divided
by 1000, any other numeric timestamp is kept as is. -/
theorem build_location_ts_normalized :
    ∀ (kvs : JObj) (q : Rat),
      dGetD kvs tsK (JVal.num 0) = JVal.num q →
      dGetD kvs latK JVal.null ≠ JVal.null →
      dGetD kvs lonK JVal.null ≠ JVal.null →
      ∃ loc, build_location (JVal.obj kvs) = some (some loc) ∧
        dGet loc tsK = some (JVal.num (if 1000000000000 < q then q / 1000 else q)) := by
  intro kvs q hts hlat hlon
  refine ⟨?_, ?_, ?_⟩
  · exact (JObj.ofList
      [(latK, dGetD kvs latK JVal.null), (lonK, dGetD kvs lonK JVal.null),
       (accK, dGetD kvs accK JVal.null), (tsK, JVal.num q),
       (addrK, dGetD kvs addrK (JVal.obj JObj.nil))]).setKey tsK
      (JVal.num (if 1000000000000 < q then q / 1000 else q))
  · simp only [build_location, hts, normTs_num]
    rw [if_neg (by tauto)]
  · exact dGet_setKey_self _ _ _

/-- Witness for C5: timestamp 1715000000000 is divided by 1000, timestamp
1715000000 is left unchanged, inside concretely built locations. -/
theorem build_location_ts_normalized_witness :
    (∃ loc, build_location (JVal.obj wTagMs) = some (some loc) ∧
       dGet loc tsK = some (JVal.num (if 1000000000000 < (1715000000000 : Rat)
         then (1715000000000 : Rat) / 1000 else (1715000000000 : Rat)))) ∧
    (∃ loc, build_location (JVal.obj wTagS) = some (some loc) ∧
       dGet loc tsK = some (JVal.num (if 1000000000000 < (1715000000 : Rat)
         then (1715000000 : Rat) / 1000 else (1715000000 : Rat)))) :=
  ⟨build_location_ts_normalized wTagMs 1715000000000 (by decide) (by decide) (by decide),
   build_location_ts_normalized wTagS 1715000000 (by decide) (by decide) (by decide)⟩

/-! ## C6, C10 -/

lemma findPass_eq_find? {p : JVal → Option Bool} {pb : JVal → Bool} :
    ∀ items : List JVal, (∀ it ∈ items, p it = some (pb it)) →
      findPass p items = some (items.find? pb)
  | [], _ => by simp [findPass]
  | it :: rest, h => by
    have hit := h it (by simp)
    cases hb : pb it
    · rw [hb] at hit
      simp [findPass, hit, List.find?_cons, hb,
        findPass_eq_find? rest (fun x hx => h x (by simp [hx]))]
    · rw [hb] at hit
      simp [findPass, hit, List.find?_cons, hb]

/-- Characterization of `find_airtag` on items whose names are strings:
first exact hit, else first fallback hit, else not found. -/
lemma find_airtag_char (items : List JVal) (name : List Char)
    (hwf : ∀ it ∈ items, (itemNameStr it).isSome) :
    find_airtag items name =
      some (orOpt (items.find? (exactB (lowerL name)))
                  (items.find? (subB (lowerL name)))) := by
  have hex : ∀ it ∈ items, exactHit (lowerL name) it = some (exactB (lowerL name) it) := by
    intro it hi
    rcases Option.isSome_iff_exists.mp (hwf it hi) with ⟨s, hs⟩
    simp [exactHit, exactB, hs]
  have hsub : ∀ it ∈ items, subHit (lowerL name) it = some (subB (lowerL name) it) := by
    intro it hi
    rcases Option.isSome_iff_exists.mp (hwf it hi) with ⟨s, hs⟩
    simp [subHit, subB, hs]
  show (match findPass (exactHit (lowerL name)) items with
    | none => none
    | some (some it) => some (some it)
    | some none => findPass (subHit (lowerL name)) items) = _
  rw [findPass_eq_find? items hex]
  cases hf : items.find? (exactB (lowerL name)) with
  | some it => simp [orOpt]
  | none => simp [orOpt, findPass_eq_find? items hsub]

/-- C6: on an entity list whose name fields are all strings, the matcher
returns the first case-insensitively exact hit; failing that, the first
entity whose lowered name contains the lowered target or is contained in
it; failing both, not found (`none`). -/
theorem find_airtag_spec :
    ∀ (items : List JVal) (name : List Char),
      (∀ it ∈ items, (itemNameStr it).isSome) →
      find_airtag items name =
        some (orOpt (items.find? (exactB (lowerL name)))
                    (items.find? (subB (lowerL name)))) :=
  fun items name hwf => find_airtag_char items name hwf

/-- Witness for C6: target "LYRIQ" matches the single entity named
"ERAUBCU LYRIQ" through the fallback pass. -/
theorem find_airtag_spec_witness :
    find_airtag [entLyriq] "LYRIQ".data = some (some entLyriq) := by
  rw [find_airtag_spec [entLyriq] "LYRIQ".data (by decide)]
  decide

lemma hasSub_nil_left : ∀ hay : List Char, hasSub [] hay = true
  | [] => rfl
  | _ :: cs => by simp [hasSub, leadsWith, hasSub_nil_left cs]

lemma find?_append_none {p : JVal → Bool} :
    ∀ (pre l2 : List JVal), (∀ it ∈ pre, p it = false) →
      (pre ++ l2).find? p = l2.find? p
  | [], l2, _ => rfl
  | it :: rest, l2, h => by
    simp [List.find?_cons, h it (by simp),
      find?_append_none rest l2 (fun x hx => h x (by simp [hx]))]

/-- C10: in the fallback pass an entity whose name is absent or empty
matches every target (the empty string is contained in any string), so
with no exact match anywhere and no earlier fallback hit, the matcher
returns the nameless entity whatever the target is. -/
theorem nameless_entity_matches :
    ∀ (target : List Char) (pre post : List JVal) (it0 : JVal),
      (∀ it ∈ pre ++ it0 :: post, (itemNameStr it).isSome) →
      (pre ++ it0 :: post).find? (exactB (lowerL target)) = none →
      itemNameStr it0 = some [] →
      (∀ it ∈ pre, subB (lowerL target) it = false) →
      find_airtag (pre ++ it0 :: post) target = some (some it0) := by
  intro target pre post it0 hwf hex h0 hpre
  rw [find_airtag_char _ _ hwf, hex]
  have hsub0 : subB (lowerL target) it0 = true := by
    simp [subB, h0, lowerL, hasSub_nil_left]
  have hfind : (pre ++ it0 :: post).find? (subB (lowerL target)) = some it0 := by
    rw [find?_append_none pre _ hpre]
    simp [List.find?_cons, hsub0]
  rw [hfind]
  simp [orOpt]

/-- Witness for C10: a dict with no name field placed before a genuinely
named entity is returned for the unrelated target "zzz". -/
theorem nameless_entity_matches_witness :
    find_airtag ([] ++ entNameless :: [entLyriq]) "zzz".data =
      some (some entNameless) :=
  nameless_entity_matches "zzz".data [] [entLyriq] entNameless
    (by decide) (by decide) (by decide) (by decide)

/-! ## C7 -/

lemma normalizeItem_with_loc {kvs : JObj} {lk : List Char} {lv : JVal} {lt : JObj}
    (hloc : dGetD kvs locK JVal.null = JVal.obj (JObj.cons lk lv lt)) :
    normalizeItem (JVal.obj kvs) =
      some (JVal.obj ((JObj.cons nameK (dGetD kvs nameK (JVal.str "Unknown".data))
          (JObj.cons rawK (JVal.obj kvs) JObj.nil)).append (JObj.ofList
        [(latK, dGetD (JObj.cons lk lv lt) latK JVal.null),
         (lonK, dGetD (JObj.cons lk lv lt) lonK JVal.null),
         (accK, dGetD (JObj.cons lk lv lt) haccK JVal.null),
         (tsK, dGetD (JObj.cons lk lv lt) tstampK JVal.null),
         (addrK, dGetD kvs addrK (JVal.obj JObj.nil))]))) := by
  simp only [normalizeItem, hloc]

lemma normalizeItem_no_loc {kvs : JObj}
    (h : ∀ (lk : List Char) (lv : JVal) (lt : JObj),
      dGetD kvs locK JVal.null ≠ JVal.obj (JObj.cons lk lv lt)) :
    normalizeItem (JVal.obj kvs) =
      some (JVal.obj (JObj.cons nameK (dGetD kvs nameK (JVal.str "Unknown".data))
        (JObj.cons rawK (JVal.obj kvs) JObj.nil))) := by
  cases hloc : dGetD kvs locK JVal.null with
  | obj lo =>
    cases lo with
    | nil => simp only [normalizeItem, hloc]
    | cons lk lv lt => exact absurd hloc (h lk lv lt)
  | null => simp only [normalizeItem, hloc]
  | boolv b => simp only [normalizeItem, hloc]
  | num q => simp only [normalizeItem, hloc]
  | str s => simp only [normalizeItem, hloc]
  | arr a => simp only [normalizeItem, hloc]

lemma normalizeItem_obj_spec (kvs : JObj) :
    ∃ y, normalizeItem (JVal.obj kvs) = some y ∧ elemSpec (JVal.obj kvs) y := by
  by_cases hl : ∃ (lk : List Char) (lv : JVal) (lt : JObj),
      dGetD kvs locK JVal.null = JVal.obj (JObj.cons lk lv lt)
  · rcases hl with ⟨lk, lv, lt, hloc⟩
    refine ⟨_, normalizeItem_with_loc hloc, ?_⟩
    intro kvs0 hk
    cases hk
    constructor
    · intro lkvs hlk _
      rw [hloc] at hlk
      cases hlk
      exact ⟨rfl, rfl, rfl, rfl⟩
    · intro hnil
      exact absurd (hnil _ hloc) (by simp)
  · push_neg at hl
    refine ⟨_, normalizeItem_no_loc hl, ?_⟩
    intro kvs0 hk
    cases hk
    constructor
    · intro lkvs hlk hne
      cases lkvs with
      | nil => exact absurd rfl hne
      | cons lk lv lt => exact absurd hlk (hl lk lv lt)
    · intro _
      exact ⟨rfl, rfl⟩

lemma extract_arr_lemma : ∀ xs : List JVal,
    (∀ x ∈ xs, ∃ kvs, x = JVal.obj kvs) →
    ∃ ys, mapItems xs = some ys ∧ ys.length = xs.length ∧
      List.Forall₂ elemSpec xs ys
  | [], _ => ⟨[], rfl, rfl, List.Forall₂.nil⟩
  | x :: t, h => by
    rcases h x (by simp) with ⟨kvs, rfl⟩
    rcases normalizeItem_obj_spec kvs with ⟨y, hy, hspec⟩
    rcases extract_arr_lemma t (fun z hz => h z (by simp [hz])) with
      ⟨ys, hys, hlen, hfa⟩
    exact ⟨y :: ys, by simp [mapItems, hy, hys], by simp [hlen],
      List.Forall₂.cons hspec hfa⟩

/-- C7: a structured input that is an array of record dicts yields one
normalized record per input record in source order; location fields are
copied from a non-empty nested location dict, and records lacking such a
dict get no latitude/longitude key at all (never a default number). -/
theorem extract_items_arr_spec :
    ∀ xs : List JVal, (∀ x ∈ xs, ∃ kvs, x = JVal.obj kvs) →
      ∃ ys, extract_items (JVal.arr (JArr.ofList xs)) =
          some (JVal.arr (JArr.ofList ys)) ∧
        ys.length = xs.length ∧ List.Forall₂ elemSpec xs ys := by
  intro xs h
  rcases extract_arr_lemma xs h with ⟨ys, hmap, hlen, hfa⟩
  refine ⟨ys, ?_, hlen, hfa⟩
  simp only [extract_items, JArr.toList_ofList, hmap]
  rfl

/-- Witness for C7 at the single-element array `[cexElem]`. -/
theorem extract_items_arr_spec_witness :
    ∃ ys, extract_items (JVal.arr (JArr.ofList [cexElem])) =
        some (JVal.arr (JArr.ofList ys)) ∧
      ys.length = [cexElem].length ∧ List.Forall₂ elemSpec [cexElem] ys :=
  extract_items_arr_spec [cexElem]
    (fun x hx => by
      rw [List.mem_singleton.mp hx]
      exact ⟨JObj.ofList
        [(nameK, JVal.str ['A']),
         (locK, JVal.obj (JObj.ofList [(latK, JVal.num 1)]))], rfl⟩)

/-! ## C8 -/

/-- C8: an absent persisted file loads as the empty log initialized with
the configured tracked name, while a file that exists but does not parse
is a fatal error (`none`) with no fallback to the empty log. -/
theorem load_history_spec :
    load_history none = some (JVal.obj (JObj.ofList
      [("airtag_name".data, JVal.str AIRTAG_NAME),
       ("locations".data, JVal.arr JArr.nil)])) ∧
    load_history (some none) = none :=
  ⟨rfl, rfl⟩

/-! ## C9 -/

lemma adjOk_processCandidate {hist : List JVal} (h : adjOk hist)
    (a : JVal) (now : List Char) : adjOk (processCandidate hist a now) := by
  unfold processCandidate
  cases hb : build_location a with
  | none => simp only [hb]; exact h
  | some o =>
    cases o with
    | none => simp only [hb]; exact h
    | some loc =>
      simp only [hb]
      cases hr : recordIfChanged hist loc now with
      | none => simp only [hr]; exact h
      | some res =>
        simp only [hr]
        unfold recordIfChanged at hr
        cases hla : dGet loc latK with
        | none =>
          rw [hla] at hr
          exact absurd hr (by simp)
        | some lv =>
        rw [hla] at hr
        cases hlo : dGet loc lonK with
        | none =>
          rw [hlo] at hr
          exact absurd hr (by simp)
        | some lnv =>
        rw [hlo] at hr
        simp only [] at hr
        cases hchk : isNewCheck hist lv lnv with
        | none =>
          rw [hchk] at hr
          exact absurd hr (by simp)
        | some b =>
        rw [hchk] at hr
        cases b with
        | false =>
          simp only [Option.some.injEq] at hr
          subst hr
          exact h
        | true =>
          simp only [Option.some.injEq] at hr
          subst hr
          show adjOk (hist ++ [JVal.obj (loc.setKey recAtK (JVal.str now))])
          unfold isNewCheck at hchk
          cases hlast : hist.getLast? with
          | none =>
            have he : hist = [] := List.getLast?_eq_none_iff.mp hlast
            subst he
            simp [adjOk]
          | some lastv =>
          rw [hlast] at hchk
          cases lastv with
          | null => exact absurd hchk (by simp)
          | boolv b => exact absurd hchk (by simp)
          | num q => exact absurd hchk (by simp)
          | str s2 => exact absurd hchk (by simp)
          | arr a2 => exact absurd hchk (by simp)
          | obj kvs =>
          simp only [Option.some.injEq, Bool.not_eq_true',
            decide_eq_false_iff_not] at hchk
          have hjlat : jlat (JVal.obj (loc.setKey recAtK (JVal.str now))) = lv := by
            simp [jlat, dGetD, dGet_setKey_ne _ _ (by decide : latK ≠ recAtK), hla]
          have hjlon : jlon (JVal.obj (loc.setKey recAtK (JVal.str now))) = lnv := by
            simp [jlon, dGetD, dGet_setKey_ne _ _ (by decide : lonK ≠ recAtK), hlo]
          rw [adjOk, List.chain'_append]
          refine ⟨h, by simp, ?_⟩
          intro x hx y hy
          rw [hlast] at hx
          simp only [Option.mem_def, Option.some.injEq] at hx
          simp only [List.head?_cons, Option.mem_def, Option.some.injEq] at hy
          subst hx
          subst hy
          rw [hjlat, hjlon]
          simpa [jlat, jlon] using hchk

/-- C9: starting from an empty history, any sequence of extraction cycles
leaves the stored locations list with no two adjacent entries sharing the
same (latitude, longitude) pair. -/
theorem history_pairs_adjacent_distinct :
    ∀ cands : List (JVal × List Char),
      adjOk (cands.foldl (fun h c => processCandidate h c.1 c.2) []) := by
  intro cands
  have main : ∀ (l : List (JVal × List Char)) (hist : List JVal), adjOk hist →
      adjOk (l.foldl (fun h c => processCandidate h c.1 c.2) hist) := by
    intro l
    induction l with
    | nil => intro hist h; exact h
    | cons c t ih =>
      intro hist h
      exact ih _ (adjOk_processCandidate h c.1 c.2)
  exact main cands [] (by simp [adjOk])
